import Mathlib

set_option linter.all false

/-!
Verification development for the record-flattening preprocessor
(`preprocessor.py`).  The Python program is shallowly embedded: dynamic
Python values become the inductive type `PyVal`, Python floats are
idealized as exact decimals (`PFloat` over `Dec`, plus infinities and
nan) — adequate here because the program performs no float arithmetic,
only parsing and printing of decimal literals — and every fallible
Python operation (`float(..)`, `int(..)`, `json.loads`, UTF-8 decoding)
becomes an `Option`-valued total function, with the program's
`try/except` blocks embedded as the corresponding `Option` case splits.
The logging sink is pure output and is dropped from the model.
-/

/-- An exact decimal number `m * 10 ^ e`.  Values built through `mkDec`
are normalized (`m = 0` forces `e = 0`; otherwise `10` does not divide
`m`), so structural equality coincides with numeric equality. -/
structure Dec where
  m : Int
  e : Int
deriving DecidableEq

/-- Strip factors of ten from the mantissa into the exponent
(fuel-driven; the fuel bounds the number of trailing zeros). -/
def stripTens : Nat → Int → Int → Dec
  | 0, m, e => ⟨m, e⟩
  | fuel + 1, m, e =>
    if m % 10 = 0 ∧ m ≠ 0 then stripTens fuel (m / 10) (e + 1) else ⟨m, e⟩

/-- Normalizing constructor for exact decimals. -/
def mkDec (m : Int) (e : Int) : Dec :=
  if m = 0 then ⟨0, 0⟩ else stripTens m.natAbs m e

/-- Idealized Python float: an exact decimal, or an infinity, or nan.
All finite floats arising in the program come from parsing decimal
text, so exact decimals model them faithfully (no arithmetic is ever
performed on them). -/
inductive PFloat where
  | finite (d : Dec)
  | inf (neg : Bool)
  | nan
deriving DecidableEq

/-- Universe of Python values the program can encounter: `None`, bools,
ints, floats, strings, byte sequences, lists, dicts (association lists
with unique keys, insertion-ordered) and attribute-bearing objects. -/
inductive PyVal where
  | none
  | bool (b : Bool)
  | int (n : Int)
  | float (f : PFloat)
  | str (s : String)
  | bytes (bs : List Nat)
  | list (xs : List PyVal)
  | dict (kvs : List (String × PyVal))
  | obj (attrs : List (String × PyVal))

/-- First-match lookup in an association list (Python dict lookup;
keys are unique in any dict built by the program or its inputs). -/
def lookupVal : List (String × PyVal) → String → Option PyVal
  | [], _ => Option.none
  | (k, v) :: rest, name => if k = name then some v else lookupVal rest name

/-- Python truthiness (`bool(x)`): `None`, `False`, zero, empty
string/bytes/list/dict are falsy; plain objects are truthy. -/
def truthy : PyVal → Bool
  | .none => false
  | .bool b => b
  | .int n => decide (n ≠ 0)
  | .float (.finite d) => decide (d.m ≠ 0)
  | .float (.inf _) => true
  | .float .nan => true
  | .str s => decide (s ≠ "")
  | .bytes bs => decide (bs ≠ [])
  | .list xs => !xs.isEmpty
  | .dict kvs => !kvs.isEmpty
  | .obj _ => true

/-- Python short-circuit `a or b` (value-returning). -/
def pyOr (a b : PyVal) : PyVal := if truthy a then a else b

/-- Embedding of the helper `get_prop(obj, name)` of the source:
`None` yields `None`; dicts use `dict.get` (absent key gives `None`);
objects use `getattr` when the attribute exists; every other value
supports neither keyed, attribute, nor string-indexed access, so the
final `obj[name]` attempt raises and is swallowed to `None`. -/
def get_prop : PyVal → String → PyVal
  | .none, _ => .none
  | .dict kvs, name => (lookupVal kvs name).getD .none
  | .obj attrs, name =>
    match lookupVal attrs name with
    | some v => v
    | Option.none => .none
  | _, _ => .none

/-- Lower-case hex digit for byte escapes. -/
def hexDigitChar (n : Nat) : Char :=
  if n < 10 then Char.ofNat (48 + n) else Char.ofNat (87 + n)

/-- Two lower-case hex digits of a byte. -/
def hex2 (b : Nat) : String :=
  String.mk [hexDigitChar (b / 16 % 16), hexDigitChar (b % 16)]

/-- One byte of Python `repr(bytes)` relative to the chosen quote. -/
def byteEscape (q : Char) (b : Nat) : String :=
  if b = 92 then "\\\\"
  else if b = q.toNat then "\\" ++ String.mk [q]
  else if b = 9 then "\\t"
  else if b = 10 then "\\n"
  else if b = 13 then "\\r"
  else if 32 ≤ b ∧ b ≤ 126 then String.mk [Char.ofNat b]
  else "\\x" ++ hex2 b

/-- Python `repr` of a bytes value (what `str(val)` yields for bytes):
`b` prefix, quotes (double quotes when the bytes contain a single quote
but no double quote), printable ASCII literal, standard escapes,
`\xNN` otherwise. -/
def bytesRepr (bs : List Nat) : String :=
  let q : Char := if bs.contains 39 ∧ ¬ bs.contains 34
                  then Char.ofNat 34 else Char.ofNat 39
  "b" ++ String.mk [q] ++ String.join (bs.map (byteEscape q)) ++ String.mk [q]

/-- Continuation byte test for strict UTF-8. -/
def contByte (c : Nat) : Bool := decide (128 ≤ c ∧ c ≤ 191)

/-- Strict UTF-8 decoding (CPython `bytes.decode("utf-8")`): rejects
overlong forms, surrogates, code points above U+10FFFF and truncated
sequences.  Fuel-driven; callers pass the list length as fuel. -/
def utf8DecodeAux : Nat → List Nat → Option (List Char)
  | _, [] => some []
  | 0, _ :: _ => Option.none
  | fuel + 1, b :: rest =>
    if b ≤ 127 then
      (utf8DecodeAux fuel rest).map (fun cs => Char.ofNat b :: cs)
    else if b ≤ 193 then Option.none
    else if b ≤ 223 then
      match rest with
      | c1 :: rest1 =>
        if contByte c1 then
          (utf8DecodeAux fuel rest1).map
            (fun cs => Char.ofNat ((b - 192) * 64 + (c1 - 128)) :: cs)
        else Option.none
      | [] => Option.none
    else if b ≤ 239 then
      match rest with
      | c1 :: c2 :: rest2 =>
        if (if b = 224 then decide (160 ≤ c1 ∧ c1 ≤ 191)
            else if b = 237 then decide (128 ≤ c1 ∧ c1 ≤ 159)
            else contByte c1) && contByte c2 then
          (utf8DecodeAux fuel rest2).map
            (fun cs => Char.ofNat ((b - 224) * 4096 + (c1 - 128) * 64 + (c2 - 128)) :: cs)
        else Option.none
      | _ => Option.none
    else if b ≤ 244 then
      match rest with
      | c1 :: c2 :: c3 :: rest3 =>
        if (if b = 240 then decide (144 ≤ c1 ∧ c1 ≤ 191)
            else if b = 244 then decide (128 ≤ c1 ∧ c1 ≤ 143)
            else contByte c1) && contByte c2 && contByte c3 then
          (utf8DecodeAux fuel rest3).map
            (fun cs => Char.ofNat ((b - 240) * 262144 + (c1 - 128) * 4096
                                   + (c2 - 128) * 64 + (c3 - 128)) :: cs)
        else Option.none
      | _ => Option.none
    else Option.none

/-- Strict UTF-8 decoding of a byte sequence to text. -/
def utf8Decode (bs : List Nat) : Option String :=
  (utf8DecodeAux bs.length bs).map String.mk

/-- Embedding of the helper `extract_data(container)` of the source:
`None` passes through; otherwise the `data` field is looked up and the
container itself is used when that lookup is falsy (Python `or`); a
bytes result is decoded as UTF-8, falling back to `str(val)` (the bytes
repr) when decoding fails; all other values pass through unchanged. -/
def extract_data : PyVal → PyVal
  | .none => .none
  | container =>
    match pyOr (get_prop container "data") container with
    | .bytes bs =>
      match utf8Decode bs with
      | some s => .str s
      | Option.none => .str (bytesRepr bs)
    | v => v

/-- Leading sign of a Python numeric literal; returns the negativity
flag and the remaining characters. -/
def parseSign : List Char → Bool × List Char
  | '-' :: rest => (true, rest)
  | '+' :: rest => (false, rest)
  | cs => (false, cs)

/-- Longest digit run at the front of the input. -/
def takeDigits (cs : List Char) : List Char × List Char :=
  (cs.takeWhile Char.isDigit, cs.dropWhile Char.isDigit)

/-- Numeric value of a digit run. -/
def digitsToNat (ds : List Char) : Nat :=
  ds.foldl (fun acc c => acc * 10 + (c.toNat - 48)) 0

/-- CPython's underscore rule for numeric literals: every underscore
must sit between two digits. -/
def underscoresOkAux : Option Char → List Char → Bool
  | prev, '_' :: rest =>
    (match prev with
     | some p => p.isDigit
     | Option.none => false) &&
    (match rest with
     | n :: _ => n.isDigit
     | [] => false) &&
    underscoresOkAux (some '_') rest
  | _, c :: rest => underscoresOkAux (some c) rest
  | _, [] => true

/-- Whether every underscore in the characters is between digits. -/
def underscoresOk (cs : List Char) : Bool := underscoresOkAux Option.none cs

/-- Negation of an exact decimal (normalization is preserved). -/
def decNeg (d : Dec) : Dec := ⟨-d.m, d.e⟩

/-- Unsigned decimal float body `digits [. digits] [(e|E) [sign]
digits]` exactly as CPython's float parser accepts it (at least one
mantissa digit, full input consumed); yields the exact decimal value. -/
def parseUnsignedDec (cs : List Char) : Option Dec :=
  let (ip, r1) := takeDigits cs
  let fracSplit : List Char × List Char :=
    match r1 with
    | '.' :: t => takeDigits t
    | _ => ([], r1)
  let fp := fracSplit.1
  let r2 := if r1.head? = some '.' then fracSplit.2 else r1
  if ip = [] ∧ fp = [] then Option.none
  else
    match r2 with
    | [] => some (mkDec (digitsToNat (ip ++ fp) : Int) (-(fp.length : Int)))
    | e :: t =>
      if e = 'e' ∨ e = 'E' then
        let (eneg, t2) := parseSign t
        let (ed, r3) := takeDigits t2
        if ed = [] ∨ r3 ≠ [] then Option.none
        else
          let ex : Int := (if eneg then -(digitsToNat ed : Int) else (digitsToNat ed : Int))
                          - (fp.length : Int)
          some (mkDec (digitsToNat (ip ++ fp) : Int) ex)
      else Option.none

/-- ASCII whitespace stripped by Python's numeric parsers and
`str.strip()` (the model covers the ASCII set; the program's payloads
are ASCII CSV/JSON text). -/
def isPySpace (c : Char) : Bool :=
  c = ' ' ∨ c = '\t' ∨ c = '\n' ∨ c = '\r' ∨ c = Char.ofNat 11 ∨ c = Char.ofNat 12

/-- Both-ends whitespace strip on character lists. -/
def trimChars (cs : List Char) : List Char :=
  ((cs.dropWhile isPySpace).reverse.dropWhile isPySpace).reverse

/-- Embedding of Python `float(s)` on text: strip whitespace, check the
underscore rule and drop underscores, take an optional sign, accept
`inf`/`infinity`/`nan` case-insensitively, else parse a decimal body.
`Option.none` models the `ValueError` the program catches. -/
def pyFloatOfString (s : String) : Option PFloat :=
  let cs0 := trimChars s.data
  if underscoresOk cs0 then
    let cs1 := cs0.filter (fun c => c ≠ '_')
    let (neg, cs2) := parseSign cs1
    let low := String.mk (cs2.map Char.toLower)
    if low = "inf" ∨ low = "infinity" then some (.inf neg)
    else if low = "nan" then some .nan
    else
      match parseUnsignedDec cs2 with
      | some d => some (.finite (if neg then decNeg d else d))
      | Option.none => Option.none
  else Option.none

/-- Embedding of Python `int(s)` on text (base 10): strip whitespace,
underscore rule, optional sign, at least one digit, nothing else. -/
def pyIntOfString (s : String) : Option Int :=
  let cs0 := trimChars s.data
  if underscoresOk cs0 then
    let cs1 := cs0.filter (fun c => c ≠ '_')
    let (neg, cs2) := parseSign cs1
    if cs2 ≠ [] ∧ cs2.all Char.isDigit then
      some (if neg then -(digitsToNat cs2 : Int) else (digitsToNat cs2 : Int))
    else Option.none
  else Option.none

/-- Embedding of Python `float(x)` on arbitrary values: identity on
floats, exact conversion of ints and bools, text parsing for strings
and ASCII byte strings; everything else raises (`Option.none`). -/
def pyFloat : PyVal → Option PFloat
  | .float f => some f
  | .int n => some (.finite (mkDec n 0))
  | .bool b => some (.finite (if b then mkDec 1 0 else mkDec 0 0))
  | .str s => pyFloatOfString s
  | .bytes bs =>
    if bs.all (fun b => b ≤ 127) then pyFloatOfString (String.mk (bs.map Char.ofNat))
    else Option.none
  | _ => Option.none

/-- Truncation of an exact decimal toward zero (Python `int(float)`). -/
def decTruncInt (d : Dec) : Int :=
  if 0 ≤ d.e then d.m * ((10 : Int) ^ d.e.toNat)
  else Int.div d.m ((10 : Int) ^ (-d.e).toNat)

/-- Embedding of Python `int(x)` on arbitrary values: identity on ints,
bools to 0/1, finite floats truncate toward zero (nan/inf raise), text
and ASCII bytes parse; everything else raises (`Option.none`). -/
def pyInt : PyVal → Option Int
  | .int n => some n
  | .bool b => some (if b then 1 else 0)
  | .float (.finite d) => some (decTruncInt d)
  | .float _ => Option.none
  | .str s => pyIntOfString s
  | .bytes bs =>
    if bs.all (fun b => b ≤ 127) then pyIntOfString (String.mk (bs.map Char.ofNat))
    else Option.none
  | _ => Option.none

/-- Insert a decimal point `k` digits from the right of a digit string,
zero-padding on the left as needed (`"25"`, 1 ↦ `"2.5"`; `"5"`, 2 ↦
`"0.05"`). -/
def insertDot (ds : String) (k : Nat) : String :=
  let padded := if ds.length < k + 1
                then String.mk (List.replicate (k + 1 - ds.length) '0') ++ ds
                else ds
  let cut := padded.length - k
  String.mk (padded.data.take cut) ++ "." ++ String.mk (padded.data.drop cut)

/-- Exponent field padded to two digits with an explicit sign, as in
Python float repr (`e+16`, `e-05`). -/
def expField (ex : Int) : String :=
  let a := toString ex.natAbs
  "e" ++ (if ex < 0 then "-" else "+") ++
    (if a.length < 2 then "0" ++ a else a)

/-- Python `repr` of a finite float holding the exact decimal `d`:
positional notation when the decimal exponent lies in [-4, 16),
exponent notation otherwise, matching CPython's shortest-repr output on
decimal-exact values. -/
def floatReprFinite (d : Dec) : String :=
  if d.m = 0 then "0.0"
  else
    let digitsStr := toString d.m.natAbs
    let ex : Int := (digitsStr.length : Int) - 1 + d.e
    (if d.m < 0 then "-" else "") ++
      (if -4 ≤ ex ∧ ex < 16 then
        if 0 ≤ d.e then digitsStr ++ String.mk (List.replicate d.e.toNat '0') ++ ".0"
        else insertDot digitsStr (-d.e).toNat
      else
        let mant :=
          match digitsStr.data with
          | [] => "0"
          | dd :: [] => String.mk [dd]
          | dd :: rest => String.mk [dd] ++ "." ++ String.mk rest
        mant ++ expField ex)

/-- Python `str`/`repr` of a float. -/
def floatRepr : PFloat → String
  | .finite q => floatReprFinite q
  | .inf neg => if neg then "-inf" else "inf"
  | .nan => "nan"

/-- One character of Python `repr` of a string, relative to the chosen
quote (printable characters kept; the non-printable rendering is the
`\xNN` form, enough for the ASCII data this program handles). -/
def strEscapeChar (q : Char) (c : Char) : String :=
  if c = '\\' then "\\\\"
  else if c = q then "\\" ++ String.mk [q]
  else if c = '\t' then "\\t"
  else if c = '\n' then "\\n"
  else if c = '\r' then "\\r"
  else if c.toNat < 32 ∨ c.toNat = 127 then "\\x" ++ hex2 c.toNat
  else String.mk [c]

/-- Python `repr` of a string: quoted with the same quote-choice rule
as bytes. -/
def strRepr (s : String) : String :=
  let q : Char := if s.data.contains (Char.ofNat 39) ∧ ¬ s.data.contains (Char.ofNat 34)
                  then Char.ofNat 34 else Char.ofNat 39
  String.mk [q] ++ String.join (s.data.map (strEscapeChar q)) ++ String.mk [q]

/-- Python `repr` of a value.  Plain objects print as an address-bearing
`<...>` token; the model fixes it to `"<object>"`, which is
indistinguishable downstream (it can never parse as JSON). -/
def pyRepr : PyVal → String
  | .none => "None"
  | .bool b => if b then "True" else "False"
  | .int n => toString n
  | .float f => floatRepr f
  | .str s => strRepr s
  | .bytes bs => bytesRepr bs
  | .list xs =>
    "[" ++ String.intercalate ", " (xs.attach.map (fun x => pyRepr x.1)) ++ "]"
  | .dict kvs =>
    "\x7b" ++ String.intercalate ", "
      (kvs.attach.map (fun kv => strRepr kv.1.1 ++ ": " ++ pyRepr kv.1.2)) ++ "\x7d"
  | .obj _ => "<object>"
termination_by v => sizeOf v
decreasing_by
  all_goals simp_wf
  · have := List.sizeOf_lt_of_mem x.2
    omega
  · have := List.sizeOf_lt_of_mem kv.2
    have h2 : sizeOf kv.1.2 < sizeOf kv.1 := by
      rcases kv.1 with ⟨a, b⟩
      simp
    omega

/-- Python `str(x)`: identity on strings, `repr` otherwise (all values
this program stringifies print as their repr). -/
def pyStr : PyVal → String
  | .str s => s
  | v => pyRepr v

/-- JSON whitespace accepted by `json.loads`. -/
def jsonWs (c : Char) : Bool := c = ' ' ∨ c = '\t' ∨ c = '\n' ∨ c = '\r'

/-- Drop leading JSON whitespace. -/
def skipJsonWs (cs : List Char) : List Char := cs.dropWhile jsonWs

/-- Value of one hex digit. -/
def hexVal (c : Char) : Option Nat :=
  if c.isDigit then some (c.toNat - 48)
  else if 'a' ≤ c ∧ c ≤ 'f' then some (c.toNat - 87)
  else if 'A' ≤ c ∧ c ≤ 'F' then some (c.toNat - 55)
  else Option.none

/-- Value of a four-digit hex escape. -/
def hex4 (a b c d : Char) : Option Nat :=
  match hexVal a, hexVal b, hexVal c, hexVal d with
  | some x, some y, some z, some w => some (x * 4096 + y * 256 + z * 16 + w)
  | _, _, _, _ => Option.none

/-- One-character JSON string escapes. -/
def simpleEscape (c : Char) : Option Char :=
  if c = '"' then some '"'
  else if c = '\\' then some '\\'
  else if c = '/' then some '/'
  else if c = 'b' then some (Char.ofNat 8)
  else if c = 'f' then some (Char.ofNat 12)
  else if c = 'n' then some '\n'
  else if c = 'r' then some '\r'
  else if c = 't' then some '\t'
  else Option.none

/-- Body of a JSON string after the opening quote (strict mode: raw
control characters are rejected).  Surrogate pairs in `\u` escapes are
combined; an unpaired surrogate becomes U+FFFD (a code point Lean's
`Char` cannot hold; the substitute is indistinguishable downstream). -/
def jsonStringAux : Nat → List Char → Option (List Char × List Char)
  | 0, _ => Option.none
  | fuel + 1, cs =>
    match cs with
    | [] => Option.none
    | c :: rest =>
      if c = '"' then some ([], rest)
      else if c = '\\' then
        match rest with
        | e :: rest1 =>
          if e = 'u' then
            match rest1 with
            | h1 :: h2 :: h3 :: h4 :: rest2 =>
              match hex4 h1 h2 h3 h4 with
              | some cp =>
                if 55296 ≤ cp ∧ cp ≤ 56319 then
                  match rest2 with
                  | '\\' :: 'u' :: g1 :: g2 :: g3 :: g4 :: rest3 =>
                    match hex4 g1 g2 g3 g4 with
                    | some lo =>
                      if 56320 ≤ lo ∧ lo ≤ 57343 then
                        (jsonStringAux fuel rest3).map (fun p =>
                          (Char.ofNat (65536 + (cp - 55296) * 1024 + (lo - 56320)) :: p.1, p.2))
                      else
                        (jsonStringAux fuel rest2).map (fun p => (Char.ofNat 65533 :: p.1, p.2))
                    | Option.none =>
                      (jsonStringAux fuel rest2).map (fun p => (Char.ofNat 65533 :: p.1, p.2))
                  | _ =>
                    (jsonStringAux fuel rest2).map (fun p => (Char.ofNat 65533 :: p.1, p.2))
                else if 56320 ≤ cp ∧ cp ≤ 57343 then
                  (jsonStringAux fuel rest2).map (fun p => (Char.ofNat 65533 :: p.1, p.2))
                else
                  (jsonStringAux fuel rest2).map (fun p => (Char.ofNat cp :: p.1, p.2))
              | Option.none => Option.none
            | _ => Option.none
          else
            match simpleEscape e with
            | some ch => (jsonStringAux fuel rest1).map (fun p => (ch :: p.1, p.2))
            | Option.none => Option.none
        | [] => Option.none
      else if c.toNat < 32 then Option.none
      else (jsonStringAux fuel rest).map (fun p => (c :: p.1, p.2))

/-- JSON number token, with Python `json`'s regex semantics: integer
part `0` or a nonzero-led digit run, optional all-or-nothing fraction
and exponent groups; a token with fraction or exponent decodes as a
float, otherwise as an int. -/
def jsonNumber (cs : List Char) : Option (PyVal × List Char) :=
  let sp := match cs with
            | '-' :: t => (true, t)
            | _ => (false, cs)
  let neg := sp.1
  let cs1 := sp.2
  match cs1 with
  | [] => Option.none
  | d :: tl =>
    if d.isDigit then
      let ipair := if d = '0' then (['0'], tl) else takeDigits cs1
      let ip := ipair.1
      let r1 := ipair.2
      let fpair : List Char × List Char :=
        match r1 with
        | '.' :: t =>
          let tp := takeDigits t
          if tp.1 = [] then ([], r1) else tp
        | _ => ([], r1)
      let fp := fpair.1
      let r2 := fpair.2
      let epair : Option Int × List Char :=
        match r2 with
        | e :: t =>
          if e = 'e' ∨ e = 'E' then
            let (eneg, t2) := parseSign t
            let ep := takeDigits t2
            if ep.1 = [] then (Option.none, r2)
            else (some (if eneg then -(digitsToNat ep.1 : Int) else (digitsToNat ep.1 : Int)), ep.2)
          else (Option.none, r2)
        | [] => (Option.none, r2)
      let m : Nat := digitsToNat (ip ++ fp)
      match epair.1 with
      | some ex =>
        some (.float (.finite (mkDec (if neg then -(m : Int) else (m : Int))
                (ex - (fp.length : Int)))), epair.2)
      | Option.none =>
        if fp = [] then some (.int (if neg then -(m : Int) else (m : Int)), r2)
        else
          some (.float (.finite (mkDec (if neg then -(m : Int) else (m : Int))
                  (-(fp.length : Int)))), r2)
    else Option.none

/-- Whether the input starts with the given literal token. -/
def litAt (lit : String) (cs : List Char) : Bool :=
  decide (cs.take lit.length = lit.data)

/-- Replace-or-append insertion, as Python dict construction from pairs
(first position kept, later value wins). -/
def dictInsert (kvs : List (String × PyVal)) (k : String) (v : PyVal) :
    List (String × PyVal) :=
  match kvs with
  | [] => [(k, v)]
  | (k0, v0) :: rest => if k0 = k then (k0, v) :: rest else (k0, v0) :: dictInsert rest k v

/-- Fold a pair list into a Python dict (duplicate keys: last wins). -/
def buildObj (pairs : List (String × PyVal)) : List (String × PyVal) :=
  pairs.foldl (fun acc kv => dictInsert acc kv.1 kv.2) []

/-- Parser mode: a plain value, the inside of an object just after
`{`, the member loop of an object, the inside of an array just after
`[`, or the element loop of an array. -/
inductive JMode where
  | value
  | objFirst
  | objNext (acc : List (String × PyVal))
  | arrFirst
  | arrNext (acc : List PyVal)

/-- Recursive-descent JSON parser mirroring `json.loads` (strings,
objects, arrays, `true`/`false`/`null`, the Python extensions
`NaN`/`Infinity`/`-Infinity`, and numbers).  Fuel-driven single
function (structural recursion on the fuel, so it reduces in the
kernel); the top-level wrapper passes enough fuel that exhaustion is
unreachable. -/
def jsonCore : Nat → JMode → List Char → Option (PyVal × List Char)
  | 0, _, _ => Option.none
  | fuel + 1, mode, cs =>
    match mode with
    | .value =>
      match cs with
      | [] => Option.none
      | c :: rest =>
        if c = '"' then
          (jsonStringAux (fuel + 1) rest).map (fun p => (PyVal.str (String.mk p.1), p.2))
        else if c = Char.ofNat 123 then jsonCore fuel .objFirst (skipJsonWs rest)
        else if c = '[' then jsonCore fuel .arrFirst (skipJsonWs rest)
        else if litAt "true" cs then some (.bool true, cs.drop 4)
        else if litAt "false" cs then some (.bool false, cs.drop 5)
        else if litAt "null" cs then some (.none, cs.drop 4)
        else if litAt "NaN" cs then some (.float .nan, cs.drop 3)
        else if litAt "Infinity" cs then some (.float (.inf false), cs.drop 8)
        else if litAt "-Infinity" cs then some (.float (.inf true), cs.drop 9)
        else jsonNumber cs
    | .objFirst =>
      match cs with
      | [] => Option.none
      | c :: rest =>
        if c = Char.ofNat 125 then some (.dict [], rest)
        else if c = '"' then
          match jsonStringAux (fuel + 1) rest with
          | some (kcs, r1) =>
            match skipJsonWs r1 with
            | ':' :: r2 =>
              match jsonCore fuel .value (skipJsonWs r2) with
              | some (v, r3) => jsonCore fuel (.objNext [(String.mk kcs, v)]) (skipJsonWs r3)
              | Option.none => Option.none
            | _ => Option.none
          | Option.none => Option.none
        else Option.none
    | .objNext acc =>
      match cs with
      | [] => Option.none
      | c :: rest =>
        if c = Char.ofNat 125 then some (.dict (buildObj acc), rest)
        else if c = ',' then
          match skipJsonWs rest with
          | q :: r0 =>
            if q = '"' then
              match jsonStringAux (fuel + 1) r0 with
              | some (kcs, r1) =>
                match skipJsonWs r1 with
                | ':' :: r2 =>
                  match jsonCore fuel .value (skipJsonWs r2) with
                  | some (v, r3) =>
                    jsonCore fuel (.objNext (acc ++ [(String.mk kcs, v)])) (skipJsonWs r3)
                  | Option.none => Option.none
                | _ => Option.none
              | Option.none => Option.none
            else Option.none
          | [] => Option.none
        else Option.none
    | .arrFirst =>
      match cs with
      | [] => Option.none
      | c :: _ =>
        if c = ']' then some (.list [], cs.drop 1)
        else
          match jsonCore fuel .value cs with
          | some (v, r) => jsonCore fuel (.arrNext [v]) (skipJsonWs r)
          | Option.none => Option.none
    | .arrNext acc =>
      match cs with
      | [] => Option.none
      | c :: rest =>
        if c = ']' then some (.list acc, rest)
        else if c = ',' then
          match jsonCore fuel .value (skipJsonWs rest) with
          | some (v, r) => jsonCore fuel (.arrNext (acc ++ [v])) (skipJsonWs r)
          | Option.none => Option.none
        else Option.none

/-- Embedding of `json.loads(s)`: parse one value surrounded only by
whitespace; `Option.none` models the `JSONDecodeError` the program
catches.  The fuel exceeds the input length plus the maximal extra call
depth, so exhaustion is unreachable. -/
def jsonLoads (s : String) : Option PyVal :=
  match jsonCore (2 * s.data.length + 16) JMode.value (skipJsonWs s.data) with
  | some (v, rest) => if skipJsonWs rest = [] then some v else Option.none
  | Option.none => Option.none

/-- The mutable `flat_record` dict of the source.  Its key set is fixed
at construction and never changes (updates only overwrite existing
keys), so it is embedded as a seven-field structure of Python values. -/
structure FlatRecord where
  price : PyVal
  sqft : PyVal
  bedrooms : PyVal
  bathrooms : PyVal
  location : PyVal
  year_built : PyVal
  condition : PyVal

/-- The default flattened record of the source. -/
def defaultFlatRecord : FlatRecord :=
  { price := .float (.finite (mkDec 0 0))
    sqft := .float (.finite (mkDec 0 0))
    bedrooms := .int 0
    bathrooms := .float (.finite (mkDec 0 0))
    location := .str ""
    year_built := .int 0
    condition := .str "" }

/-- Capture lookup of the source: `get_prop(record, "captureData") or
get_prop(record, "capturedata") or record`. -/
def captureOf (record : PyVal) : PyVal :=
  pyOr (get_prop record "captureData") (pyOr (get_prop record "capturedata") record)

/-- Request-side payload container lookup: `get_prop(capture,
"endpointInput") or get_prop(capture, "endpoint_input")`. -/
def endpointInputOf (capture : PyVal) : PyVal :=
  pyOr (get_prop capture "endpointInput") (get_prop capture "endpoint_input")

/-- Response-side payload container lookup: `get_prop(capture,
"endpointOutput") or get_prop(capture, "endpoint_output")`. -/
def endpointOutputOf (capture : PyVal) : PyVal :=
  pyOr (get_prop capture "endpointOutput") (get_prop capture "endpoint_output")

/-- Python `s.split(",")`: comma-separated pieces, empty string giving
one empty piece. -/
def splitCommaAux : List Char → List Char → List (List Char)
  | [], acc => [acc.reverse]
  | c :: rest, acc =>
    if c = ',' then acc.reverse :: splitCommaAux rest []
    else splitCommaAux rest (c :: acc)

/-- CSV field list of the source: split on commas, strip each piece,
drop empty pieces. -/
def parseCsvFields (s : String) : List String :=
  ((splitCommaAux s.data []).map (fun cs => String.mk (trimChars cs))).filter
    (fun f => f ≠ "")

/-- The guarded bulk `flat_record.update(...)` of the source: only with
at least six fields; the update dict is built by evaluating all six
conversions first, so a failing conversion raises before anything is
written (the inner `try` then swallows it) — all-or-nothing. -/
def csvUpdate (fields : List String) (fr : FlatRecord) : FlatRecord :=
  if 6 ≤ fields.length then
    match pyFloatOfString (fields.getD 0 ""), pyIntOfString (fields.getD 1 ""),
          pyFloatOfString (fields.getD 2 ""), pyIntOfString (fields.getD 4 "") with
    | some sq, some bd, some ba, some yb =>
      { fr with
        sqft := .float sq
        bedrooms := .int bd
        bathrooms := .float ba
        location := .str (fields.getD 3 "")
        year_built := .int yb
        condition := .str (fields.getD 5 "") }
    | _, _, _, _ => fr
  else fr

/-- First stage of the handler: extract the request payload and, when
it is text, run the CSV update; non-text payloads are skipped. -/
def csvStage (capture : PyVal) (fr : FlatRecord) : FlatRecord :=
  match extract_data (endpointInputOf capture) with
  | .str s => csvUpdate (parseCsvFields s) fr
  | _ => fr

/-- The `pred_json` computation of the source: decode text, pass
through structured values, stringify-then-decode other non-`None`
values; `Option.none` is the Python `pred_json is None` state. -/
def predJson : PyVal → Option PyVal
  | .str s => jsonLoads s
  | .dict kvs => some (.dict kvs)
  | .list xs => some (.list xs)
  | .none => Option.none
  | other => jsonLoads (pyStr other)

/-- The price update of the source: on a decoded mapping, take
`predictions` (defaulting to `[{}]`), and when it is a non-empty list
whose head is a dict with a non-`None` `score`, set `price =
float(score)`; any raised error (non-dict head, failing conversion) is
swallowed by the enclosing `try`, leaving the record unchanged. -/
def scoreUpdate (pj : Option PyVal) (fr : FlatRecord) : FlatRecord :=
  match pj with
  | some (.dict kvs) =>
    match (lookupVal kvs "predictions").getD (.list [.dict []]) with
    | .list (p0 :: _) =>
      match p0 with
      | .dict pkvs =>
        match (lookupVal pkvs "score").getD .none with
        | .none => fr
        | score =>
          match pyFloat score with
          | some f => { fr with price := .float f }
          | Option.none => fr
      | _ => fr
    | _ => fr
  | _ => fr

/-- Second stage of the handler: extract the response payload, decode
it, and apply the score-driven price update. -/
def priceStage (capture : PyVal) (fr : FlatRecord) : FlatRecord :=
  scoreUpdate (predJson (extract_data (endpointOutputOf capture))) fr

/-- The final defensive re-cast block of the source, in source order
(sqft, bathrooms, bedrooms, year_built, price, location, condition).
A failing cast raises, aborting the block but keeping the casts already
applied (the enclosing `try` swallows the error); `str` casts cannot
fail. -/
def finalCast (fr : FlatRecord) : FlatRecord :=
  match pyFloat fr.sqft with
  | Option.none => fr
  | some v1 =>
  let fr1 := { fr with sqft := .float v1 }
  match pyFloat fr1.bathrooms with
  | Option.none => fr1
  | some v2 =>
  let fr2 := { fr1 with bathrooms := .float v2 }
  match pyInt fr2.bedrooms with
  | Option.none => fr2
  | some v3 =>
  let fr3 := { fr2 with bedrooms := .int v3 }
  match pyInt fr3.year_built with
  | Option.none => fr3
  | some v4 =>
  let fr4 := { fr3 with year_built := .int v4 }
  match pyFloat fr4.price with
  | Option.none => fr4
  | some v5 =>
  let fr5 := { fr4 with price := .float v5 }
  let fr6 := { fr5 with location := .str (pyStr fr5.location) }
  { fr6 with condition := .str (pyStr fr6.condition) }

/-- Left-pad with zeros to the given width (`str.zfill`; a leading sign
stays in front). -/
def zfill (width : Nat) (s : String) : String :=
  let sp := match s.data with
            | c :: rest => if c = '+' ∨ c = '-' then (String.mk [c], String.mk rest)
                           else ("", s)
            | [] => ("", s)
  if s.length < width
  then sp.1 ++ String.mk (List.replicate (width - s.length) '0') ++ sp.2
  else s

/-- The output comprehension of the source: the seven field values in
the order price, sqft, bedrooms, bathrooms, location, year_built,
condition — the numeric ones through `str(..)`, location and condition
used as they are — keyed by `str(i).zfill(20)` in enumeration order. -/
def serialize (fr : FlatRecord) : List (String × PyVal) :=
  let values : List PyVal :=
    [.str (pyStr fr.price), .str (pyStr fr.sqft), .str (pyStr fr.bedrooms),
     .str (pyStr fr.bathrooms), fr.location, .str (pyStr fr.year_built),
     fr.condition]
  ((List.range values.length).zip values).map (fun iv => (zfill 20 (toString iv.1), iv.2))

/-- The flattened record as it stands just before serialization. -/
def finalRecord (record : PyVal) : FlatRecord :=
  finalCast (priceStage (captureOf record) (csvStage (captureOf record) defaultFlatRecord))

/-- Embedding of `preprocess_handler` (logging dropped): defaults, CSV
stage, price stage, final re-cast, ordered serialization. -/
def preprocess_handler (record : PyVal) : List (String × PyVal) :=
  serialize (finalRecord record)

/-- Extracted request payload as the handler sees it. -/
def requestRaw (record : PyVal) : PyVal :=
  extract_data (endpointInputOf (captureOf record))

/-- Extracted response payload as the handler sees it. -/
def responseRaw (record : PyVal) : PyVal :=
  extract_data (endpointOutputOf (captureOf record))

/-- The byte-decoding step of payload extraction in isolation: decode
byte sequences (UTF-8, repr fallback), pass everything else through. -/
def decodeBytesStep : PyVal → PyVal
  | .bytes bs =>
    match utf8Decode bs with
    | some s => .str s
    | Option.none => .str (bytesRepr bs)
  | v => v

/-- ASCII lower-casing of a string (structural, kernel-reducible). -/
def strToLower (s : String) : String := String.mk (s.data.map Char.toLower)

/-- Case-insensitive association lookup, for comparison with the
claim's words about capture location. -/
def lookupCI : List (String × PyVal) → String → Option PyVal
  | [], _ => Option.none
  | (k, v) :: rest, name =>
    if strToLower k = strToLower name then some v else lookupCI rest name

/-- Modelled from the claim's words (refinement comparison only, not
part of the program): locate the capture under `captureData` or any
case-insensitive variant of it, falling back to the record itself when
absent. -/
def captureOfSpec (record : PyVal) : PyVal :=
  match record with
  | .dict kvs => (lookupCI kvs "captureData").getD record
  | .obj attrs => (lookupCI attrs "captureData").getD record
  | _ => record

/-- A well-formed captured record whose request payload has a
non-numeric sqft field. -/
def rec_c3 : PyVal :=
  .dict [("captureData", .dict [
    ("endpointInput", .dict [("data", .str "abc, 3, 2.5, Downtown, 1998, Good")])])]

/-- A well-formed captured record with a fully parseable CSV request
payload. -/
def rec_c4 : PyVal :=
  .dict [("captureData", .dict [
    ("endpointInput", .dict [("data", .str "1200, 3, 2.5, Downtown, 1998, Good")])])]

/-- A captured record whose response payload is a predictions/score
JSON document. -/
def rec_c5 : PyVal :=
  .dict [("captureData", .dict [
    ("endpointOutput", .dict [("data",
      .str "\x7b\"predictions\":[\x7b\"score\": 452000.5\x7d]\x7d")])])]

/-- A captured record whose response payload is not valid JSON. -/
def rec_c6 : PyVal :=
  .dict [("captureData", .dict [
    ("endpointOutput", .dict [("data", .str "not json")])])]

/-- A record holding its capture under `CaptureData` — a
case-insensitive variant of `captureData` that differs from both
spellings the program probes. -/
def rec_c8a : PyVal :=
  .dict [("CaptureData", .dict [
    ("endpointInput", .dict [("data", .str "1200, 3, 2.5, Downtown, 1998, Good")])])]

/-- A record whose `captureData` field is present but empty (falsy),
with a request payload sitting on the record itself. -/
def rec_c8b : PyVal :=
  .dict [("captureData", .dict []),
         ("endpointInput", .dict [("data", .str "1200, 3, 2.5, Downtown, 1998, Good")])]

/-- A flat record whose seven fields carry exactly the schema types:
float price, float sqft, int bedrooms, float bathrooms, text location,
int year_built, text condition. -/
def WellTypedFR (fr : FlatRecord) : Prop :=
  ∃ p s b a l y c,
    fr = { price := PyVal.float p, sqft := PyVal.float s, bedrooms := PyVal.int b,
           bathrooms := PyVal.float a, location := PyVal.str l,
           year_built := PyVal.int y, condition := PyVal.str c }

theorem wt_default : WellTypedFR defaultFlatRecord :=
  ⟨_, _, _, _, _, _, _, rfl⟩

theorem wt_csvUpdate (fields : List String) (fr : FlatRecord)
    (h : WellTypedFR fr) : WellTypedFR (csvUpdate fields fr) := by
  obtain ⟨p, s, b, a, l, y, c, rfl⟩ := h
  unfold csvUpdate
  split
  · split
    · exact ⟨_, _, _, _, _, _, _, rfl⟩
    · exact ⟨p, s, b, a, l, y, c, rfl⟩
  · exact ⟨p, s, b, a, l, y, c, rfl⟩

theorem wt_csvStage (capture : PyVal) (fr : FlatRecord)
    (h : WellTypedFR fr) : WellTypedFR (csvStage capture fr) := by
  unfold csvStage
  split
  · exact wt_csvUpdate _ _ h
  · exact h

theorem wt_scoreUpdate (pj : Option PyVal) (fr : FlatRecord)
    (h : WellTypedFR fr) : WellTypedFR (scoreUpdate pj fr) := by
  obtain ⟨p, s, b, a, l, y, c, rfl⟩ := h
  unfold scoreUpdate
  repeat' split
  all_goals exact ⟨_, _, _, _, _, _, _, rfl⟩

theorem wt_priceStage (capture : PyVal) (fr : FlatRecord)
    (h : WellTypedFR fr) : WellTypedFR (priceStage capture fr) :=
  wt_scoreUpdate _ _ h

/-- On a record whose fields already carry the schema types, every cast
of the final defensive block succeeds and returns the value unchanged,
so the block is the identity. -/
theorem finalCast_id (fr : FlatRecord) (h : WellTypedFR fr) :
    finalCast fr = fr := by
  obtain ⟨p, s, b, a, l, y, c, rfl⟩ := h
  rfl

/-- The final record is the output of the two stages; the closing
re-cast block changes nothing because the stages only ever write
schema-typed values. -/
theorem finalRecord_eq (record : PyVal) :
    finalRecord record
      = priceStage (captureOf record) (csvStage (captureOf record) defaultFlatRecord) :=
  finalCast_id _ (wt_priceStage _ _ (wt_csvStage _ _ wt_default))

theorem wt_finalRecord (record : PyVal) : WellTypedFR (finalRecord record) := by
  rw [finalRecord_eq]
  exact wt_priceStage _ _ (wt_csvStage _ _ wt_default)

/-- The CSV update never touches price. -/
theorem csvUpdate_price (fields : List String) (fr : FlatRecord) :
    (csvUpdate fields fr).price = fr.price := by
  unfold csvUpdate
  repeat' split
  all_goals rfl

/-- The CSV stage never touches price. -/
theorem csvStage_price (capture : PyVal) (fr : FlatRecord) :
    (csvStage capture fr).price = fr.price := by
  unfold csvStage
  split
  · exact csvUpdate_price _ _
  · rfl

/-- The score-driven update either leaves the record alone or writes
only the price field. -/
theorem scoreUpdate_cases (pj : Option PyVal) (fr : FlatRecord) :
    scoreUpdate pj fr = fr ∨
      ∃ f, scoreUpdate pj fr = { fr with price := PyVal.float f } := by
  unfold scoreUpdate
  repeat' split
  all_goals first
    | exact Or.inl rfl
    | exact Or.inr ⟨_, rfl⟩

/-- The response stage never touches the six CSV-derived fields. -/
theorem priceStage_six (capture : PyVal) (fr : FlatRecord) :
    (priceStage capture fr).sqft = fr.sqft ∧
    (priceStage capture fr).bedrooms = fr.bedrooms ∧
    (priceStage capture fr).bathrooms = fr.bathrooms ∧
    (priceStage capture fr).location = fr.location ∧
    (priceStage capture fr).year_built = fr.year_built ∧
    (priceStage capture fr).condition = fr.condition := by
  unfold priceStage
  rcases scoreUpdate_cases (predJson (extract_data (endpointOutputOf capture))) fr with h | ⟨f, h⟩ <;>
    rw [h] <;> exact ⟨rfl, rfl, rfl, rfl, rfl, rfl⟩

/-- The six CSV-derived fields of the final record are exactly those of
the CSV stage's output. -/
theorem finalRecord_six (record : PyVal) :
    (finalRecord record).sqft = (csvStage (captureOf record) defaultFlatRecord).sqft ∧
    (finalRecord record).bedrooms = (csvStage (captureOf record) defaultFlatRecord).bedrooms ∧
    (finalRecord record).bathrooms = (csvStage (captureOf record) defaultFlatRecord).bathrooms ∧
    (finalRecord record).location = (csvStage (captureOf record) defaultFlatRecord).location ∧
    (finalRecord record).year_built = (csvStage (captureOf record) defaultFlatRecord).year_built ∧
    (finalRecord record).condition = (csvStage (captureOf record) defaultFlatRecord).condition := by
  rw [finalRecord_eq]
  exact priceStage_six _ _

/-- The price of the final record is exactly that of the response
stage applied after the CSV stage. -/
theorem finalRecord_price (record : PyVal) :
    (finalRecord record).price
      = (priceStage (captureOf record) (csvStage (captureOf record) defaultFlatRecord)).price := by
  rw [finalRecord_eq]

/-- Too few CSV fields: no update. -/
theorem csvUpdate_short (fields : List String) (fr : FlatRecord)
    (h : fields.length < 6) : csvUpdate fields fr = fr := by
  unfold csvUpdate
  rw [if_neg (by omega)]

/-- A failing conversion among the four fallible ones: no update at
all (the update dict is built before `update` runs). -/
theorem csvUpdate_fail (fields : List String) (fr : FlatRecord)
    (hfail : pyFloatOfString (fields.getD 0 "") = Option.none ∨
             pyIntOfString (fields.getD 1 "") = Option.none ∨
             pyFloatOfString (fields.getD 2 "") = Option.none ∨
             pyIntOfString (fields.getD 4 "") = Option.none) :
    csvUpdate fields fr = fr := by
  unfold csvUpdate
  split
  · split
    · rename_i sq bd ba yb h1 h2 h3 h4
      simp only [List.getD] at hfail
      rcases hfail with h | h | h | h <;> simp_all
    · rfl
  · rfl

/-- All four conversions succeed: the six fields are written as one
batch. -/
theorem csvUpdate_success (fields : List String) (fr : FlatRecord)
    (hlen : 6 ≤ fields.length)
    (sq ba : PFloat) (bd yb : Int)
    (h1 : pyFloatOfString (fields.getD 0 "") = some sq)
    (h2 : pyIntOfString (fields.getD 1 "") = some bd)
    (h3 : pyFloatOfString (fields.getD 2 "") = some ba)
    (h4 : pyIntOfString (fields.getD 4 "") = some yb) :
    csvUpdate fields fr =
      { fr with
        sqft := PyVal.float sq, bedrooms := PyVal.int bd,
        bathrooms := PyVal.float ba, location := PyVal.str (fields.getD 3 ""),
        year_built := PyVal.int yb, condition := PyVal.str (fields.getD 5 "") } := by
  unfold csvUpdate
  rw [if_pos hlen]
  simp only [List.getD] at h1 h2 h3 h4 ⊢
  rw [h1, h2, h3, h4]

/-- The decoded-mapping happy path: `predictions` resolves to a
non-empty list whose head is a dict carrying a non-`None` `score` that
converts; the price is written. -/
theorem scoreUpdate_set (kvs pkvs : List (String × PyVal)) (rest : List PyVal)
    (score : PyVal) (f : PFloat) (fr : FlatRecord)
    (hpred : (lookupVal kvs "predictions").getD (PyVal.list [PyVal.dict []])
               = PyVal.list (PyVal.dict pkvs :: rest))
    (hscore : (lookupVal pkvs "score").getD PyVal.none = score)
    (hne : score ≠ PyVal.none)
    (hf : pyFloat score = some f) :
    scoreUpdate (some (PyVal.dict kvs)) fr = { fr with price := PyVal.float f } := by
  unfold scoreUpdate
  simp only [hpred, hscore]
  cases score <;> first
    | exact absurd rfl hne
    | rw [hf]

/-- C1: for every input record, the returned mapping has exactly 7
entries whose keys are the 20-character zero-padded decimal strings
"00000000000000000000" through "00000000000000000006", bound in the
fixed order price, sqft, bedrooms, bathrooms, location, year_built,
condition, each value being the text serialization of that field. -/
theorem claim_c1_output_mapping (record : PyVal) :
    (preprocess_handler record).map Prod.fst =
      ["00000000000000000000", "00000000000000000001", "00000000000000000002",
       "00000000000000000003", "00000000000000000004", "00000000000000000005",
       "00000000000000000006"] ∧
    preprocess_handler record =
      [("00000000000000000000", PyVal.str (pyStr (finalRecord record).price)),
       ("00000000000000000001", PyVal.str (pyStr (finalRecord record).sqft)),
       ("00000000000000000002", PyVal.str (pyStr (finalRecord record).bedrooms)),
       ("00000000000000000003", PyVal.str (pyStr (finalRecord record).bathrooms)),
       ("00000000000000000004", PyVal.str (pyStr (finalRecord record).location)),
       ("00000000000000000005", PyVal.str (pyStr (finalRecord record).year_built)),
       ("00000000000000000006", PyVal.str (pyStr (finalRecord record).condition))] := by
  obtain ⟨p, s, b, a, l, y, c, hfr⟩ := wt_finalRecord record
  unfold preprocess_handler
  rw [hfr]
  have hser :
      serialize { price := PyVal.float p, sqft := PyVal.float s, bedrooms := PyVal.int b,
                  bathrooms := PyVal.float a, location := PyVal.str l,
                  year_built := PyVal.int y, condition := PyVal.str c } =
        [(zfill 20 (toString 0), PyVal.str (pyStr (PyVal.float p))),
         (zfill 20 (toString 1), PyVal.str (pyStr (PyVal.float s))),
         (zfill 20 (toString 2), PyVal.str (pyStr (PyVal.int b))),
         (zfill 20 (toString 3), PyVal.str (pyStr (PyVal.float a))),
         (zfill 20 (toString 4), PyVal.str l),
         (zfill 20 (toString 5), PyVal.str (pyStr (PyVal.int y))),
         (zfill 20 (toString 6), PyVal.str c)] := rfl
  rw [hser]
  rw [show zfill 20 (toString 0) = "00000000000000000000" from rfl,
      show zfill 20 (toString 1) = "00000000000000000001" from rfl,
      show zfill 20 (toString 2) = "00000000000000000002" from rfl,
      show zfill 20 (toString 3) = "00000000000000000003" from rfl,
      show zfill 20 (toString 4) = "00000000000000000004" from rfl,
      show zfill 20 (toString 5) = "00000000000000000005" from rfl,
      show zfill 20 (toString 6) = "00000000000000000006" from rfl]
  exact ⟨rfl, rfl⟩

/-- C2: for every input record, however malformed, the transformation
terminates normally — the embedding is a total function, every Python
exception the handler can raise being caught and modelled as the
corresponding fallback branch — and the flat record it serializes has
all seven schema fields, each holding a value of its declared type
(float price/sqft/bathrooms, int bedrooms/year_built, text
location/condition). -/
theorem claim_c2_total_and_typed (record : PyVal) :
    ∃ p s b a l y c,
      finalRecord record =
        { price := PyVal.float p, sqft := PyVal.float s, bedrooms := PyVal.int b,
          bathrooms := PyVal.float a, location := PyVal.str l,
          year_built := PyVal.int y, condition := PyVal.str c } :=
  wt_finalRecord record

/-- C9: the transformation is deterministic — two invocations on equal
input records produce identical output mappings.  (The embedding is a
pure function of the input record: the source reads no clock, random
source or global state, and its only side channel, logging, does not
feed back into the output.) -/
theorem claim_c9_deterministic (r1 r2 : PyVal) (h : r1 = r2) :
    preprocess_handler r1 = preprocess_handler r2 := by
  rw [h]

/-- C9 witness: the determinism theorem applied at a concrete record. -/
theorem claim_c9_witness :
    preprocess_handler rec_c4 = preprocess_handler rec_c4 :=
  claim_c9_deterministic rec_c4 rec_c4 rfl

/-- C10: the two extraction stages have disjoint write sets — the CSV
stage never modifies price, and the response stage never modifies any
of the six CSV-derived fields. -/
theorem claim_c10_disjoint_writes (capture : PyVal) (fr : FlatRecord) :
    (csvStage capture fr).price = fr.price ∧
    ((priceStage capture fr).sqft = fr.sqft ∧
     (priceStage capture fr).bedrooms = fr.bedrooms ∧
     (priceStage capture fr).bathrooms = fr.bathrooms ∧
     (priceStage capture fr).location = fr.location ∧
     (priceStage capture fr).year_built = fr.year_built ∧
     (priceStage capture fr).condition = fr.condition) :=
  ⟨csvStage_price capture fr, priceStage_six capture fr⟩

/-- C3: for every textual request payload with at least 6 non-empty
comma-separated fields, if any of the conversions fails (the four
fallible ones are the two float and the two int casts; the two `str`
casts cannot fail), none of the six CSV-derived fields is modified:
all six retain their schema defaults — the update is all-or-nothing. -/
theorem claim_c3_all_or_nothing (record : PyVal) (s : String)
    (hreq : requestRaw record = PyVal.str s)
    (hlen : 6 ≤ (parseCsvFields s).length)
    (hfail : pyFloatOfString ((parseCsvFields s).getD 0 "") = Option.none ∨
             pyIntOfString ((parseCsvFields s).getD 1 "") = Option.none ∨
             pyFloatOfString ((parseCsvFields s).getD 2 "") = Option.none ∨
             pyIntOfString ((parseCsvFields s).getD 4 "") = Option.none) :
    (finalRecord record).sqft = PyVal.float (PFloat.finite (mkDec 0 0)) ∧
    (finalRecord record).bedrooms = PyVal.int 0 ∧
    (finalRecord record).bathrooms = PyVal.float (PFloat.finite (mkDec 0 0)) ∧
    (finalRecord record).location = PyVal.str "" ∧
    (finalRecord record).year_built = PyVal.int 0 ∧
    (finalRecord record).condition = PyVal.str "" := by
  have hcsv : csvStage (captureOf record) defaultFlatRecord = defaultFlatRecord := by
    unfold csvStage
    rw [show extract_data (endpointInputOf (captureOf record)) = PyVal.str s from hreq]
    exact csvUpdate_fail _ _ hfail
  obtain ⟨h1, h2, h3, h4, h5, h6⟩ := finalRecord_six record
  rw [hcsv] at h1 h2 h3 h4 h5 h6
  exact ⟨h1, h2, h3, h4, h5, h6⟩

/-- C3 witness: the all-or-nothing theorem applied to a record whose
request payload has a non-numeric sqft field. -/
theorem claim_c3_witness :
    (finalRecord rec_c3).sqft = PyVal.float (PFloat.finite (mkDec 0 0)) ∧
    (finalRecord rec_c3).bedrooms = PyVal.int 0 ∧
    (finalRecord rec_c3).bathrooms = PyVal.float (PFloat.finite (mkDec 0 0)) ∧
    (finalRecord rec_c3).location = PyVal.str "" ∧
    (finalRecord rec_c3).year_built = PyVal.int 0 ∧
    (finalRecord rec_c3).condition = PyVal.str "" :=
  claim_c3_all_or_nothing rec_c3 "abc, 3, 2.5, Downtown, 1998, Good" rfl
    (by decide) (Or.inl (by decide))

/-- C4: CSV parsing splits on commas, trims each piece, discards empty
pieces; with fewer than 6 non-empty pieces the six CSV-derived fields
keep their defaults; otherwise (when the conversions succeed) positions
0-5 map to sqft (float), bedrooms (int), bathrooms (float), location
(text), year_built (int), condition (text); and the example payload
"1200, 3, 2.5, Downtown, 1998, Good" parses to the stated values. -/
theorem claim_c4_csv_parsing :
    (∀ (record : PyVal) (s : String),
       requestRaw record = PyVal.str s →
       (parseCsvFields s).length < 6 →
       (finalRecord record).sqft = PyVal.float (PFloat.finite (mkDec 0 0)) ∧
       (finalRecord record).bedrooms = PyVal.int 0 ∧
       (finalRecord record).bathrooms = PyVal.float (PFloat.finite (mkDec 0 0)) ∧
       (finalRecord record).location = PyVal.str "" ∧
       (finalRecord record).year_built = PyVal.int 0 ∧
       (finalRecord record).condition = PyVal.str "") ∧
    (∀ (record : PyVal) (s : String) (sq ba : PFloat) (bd yb : Int),
       requestRaw record = PyVal.str s →
       6 ≤ (parseCsvFields s).length →
       pyFloatOfString ((parseCsvFields s).getD 0 "") = some sq →
       pyIntOfString ((parseCsvFields s).getD 1 "") = some bd →
       pyFloatOfString ((parseCsvFields s).getD 2 "") = some ba →
       pyIntOfString ((parseCsvFields s).getD 4 "") = some yb →
       (finalRecord record).sqft = PyVal.float sq ∧
       (finalRecord record).bedrooms = PyVal.int bd ∧
       (finalRecord record).bathrooms = PyVal.float ba ∧
       (finalRecord record).location = PyVal.str ((parseCsvFields s).getD 3 "") ∧
       (finalRecord record).year_built = PyVal.int yb ∧
       (finalRecord record).condition = PyVal.str ((parseCsvFields s).getD 5 "")) ∧
    (parseCsvFields "1200, 3, 2.5, Downtown, 1998, Good"
       = ["1200", "3", "2.5", "Downtown", "1998", "Good"] ∧
     (finalRecord rec_c4).sqft = PyVal.float (PFloat.finite (mkDec 1200 0)) ∧
     (finalRecord rec_c4).bedrooms = PyVal.int 3 ∧
     (finalRecord rec_c4).bathrooms = PyVal.float (PFloat.finite (mkDec 25 (-1))) ∧
     (finalRecord rec_c4).location = PyVal.str "Downtown" ∧
     (finalRecord rec_c4).year_built = PyVal.int 1998 ∧
     (finalRecord rec_c4).condition = PyVal.str "Good") := by
  refine ⟨?_, ?_, by decide, ?_, ?_, ?_, ?_, ?_, ?_⟩
  · intro record s hreq hshort
    have hcsv : csvStage (captureOf record) defaultFlatRecord = defaultFlatRecord := by
      unfold csvStage
      rw [show extract_data (endpointInputOf (captureOf record)) = PyVal.str s from hreq]
      exact csvUpdate_short _ _ hshort
    obtain ⟨h1, h2, h3, h4, h5, h6⟩ := finalRecord_six record
    rw [hcsv] at h1 h2 h3 h4 h5 h6
    exact ⟨h1, h2, h3, h4, h5, h6⟩
  · intro record s sq ba bd yb hreq hlen h1 h2 h3 h4
    have hcsv : csvStage (captureOf record) defaultFlatRecord =
        { defaultFlatRecord with
          sqft := PyVal.float sq, bedrooms := PyVal.int bd,
          bathrooms := PyVal.float ba,
          location := PyVal.str ((parseCsvFields s).getD 3 ""),
          year_built := PyVal.int yb,
          condition := PyVal.str ((parseCsvFields s).getD 5 "") } := by
      unfold csvStage
      rw [show extract_data (endpointInputOf (captureOf record)) = PyVal.str s from hreq]
      exact csvUpdate_success _ _ hlen sq ba bd yb h1 h2 h3 h4
    obtain ⟨g1, g2, g3, g4, g5, g6⟩ := finalRecord_six record
    rw [hcsv] at g1 g2 g3 g4 g5 g6
    exact ⟨g1, g2, g3, g4, g5, g6⟩
  · rfl
  · rfl
  · rfl
  · rfl
  · rfl
  · rfl

/-- C4 witness: the success branch applied to the example payload. -/
theorem claim_c4_witness :
    (finalRecord rec_c4).sqft = PyVal.float (PFloat.finite (mkDec 1200 0)) ∧
    (finalRecord rec_c4).bedrooms = PyVal.int 3 ∧
    (finalRecord rec_c4).bathrooms = PyVal.float (PFloat.finite (mkDec 25 (-1))) ∧
    (finalRecord rec_c4).location
      = PyVal.str ((parseCsvFields "1200, 3, 2.5, Downtown, 1998, Good").getD 3 "") ∧
    (finalRecord rec_c4).year_built = PyVal.int 1998 ∧
    (finalRecord rec_c4).condition
      = PyVal.str ((parseCsvFields "1200, 3, 2.5, Downtown, 1998, Good").getD 5 "") :=
  claim_c4_csv_parsing.2.1 rec_c4 "1200, 3, 2.5, Downtown, 1998, Good"
    (PFloat.finite (mkDec 1200 0)) (PFloat.finite (mkDec 25 (-1))) 3 1998 rfl
    (by decide) (by decide) (by decide) (by decide) (by decide)

/-- C5: whenever the response payload decodes to a mapping, the
`predictions` field (defaulting to `[{}]`) is consulted; when it is a
non-empty sequence whose first element carries a present, non-`None`
`score` that converts, price becomes `float(score)`; and the example
response document yields price 452000.5. -/
theorem claim_c5_score_price :
    (∀ (record : PyVal) (kvs pkvs : List (String × PyVal)) (rest : List PyVal)
       (score : PyVal) (f : PFloat),
       predJson (responseRaw record) = some (PyVal.dict kvs) →
       (lookupVal kvs "predictions").getD (PyVal.list [PyVal.dict []])
         = PyVal.list (PyVal.dict pkvs :: rest) →
       (lookupVal pkvs "score").getD PyVal.none = score →
       score ≠ PyVal.none →
       pyFloat score = some f →
       (finalRecord record).price = PyVal.float f) ∧
    (finalRecord rec_c5).price = PyVal.float (PFloat.finite (mkDec 4520005 (-1))) := by
  constructor
  · intro record kvs pkvs rest score f hdec hpred hscore hne hf
    rw [finalRecord_price]
    unfold priceStage
    rw [show predJson (extract_data (endpointOutputOf (captureOf record)))
          = some (PyVal.dict kvs) from hdec]
    rw [scoreUpdate_set kvs pkvs rest score f _ hpred hscore hne hf]
  · rfl

/-- C5 witness: the score-path theorem applied to the example record. -/
theorem claim_c5_witness :
    (finalRecord rec_c5).price = PyVal.float (PFloat.finite (mkDec 4520005 (-1))) :=
  claim_c5_score_price.1 rec_c5
    [("predictions", PyVal.list [PyVal.dict
       [("score", PyVal.float (PFloat.finite (mkDec 4520005 (-1))))]])]
    [("score", PyVal.float (PFloat.finite (mkDec 4520005 (-1))))] []
    (PyVal.float (PFloat.finite (mkDec 4520005 (-1))))
    (PFloat.finite (mkDec 4520005 (-1)))
    rfl rfl rfl (fun h => PyVal.noConfusion h) rfl

/-- C6: a textual response payload that is not valid JSON leaves price
at its default 0.0; the decode failure is the swallowed-`None` branch
of the embedding, so no exception propagates (the embedding is total). -/
theorem claim_c6_bad_json (record : PyVal) (s : String)
    (hresp : responseRaw record = PyVal.str s)
    (hbad : jsonLoads s = Option.none) :
    (finalRecord record).price = PyVal.float (PFloat.finite (mkDec 0 0)) := by
  rw [finalRecord_price]
  unfold priceStage
  have hpj : predJson (extract_data (endpointOutputOf (captureOf record))) = Option.none := by
    rw [show extract_data (endpointOutputOf (captureOf record)) = PyVal.str s from hresp]
    exact hbad
  rw [hpj]
  rw [show scoreUpdate Option.none (csvStage (captureOf record) defaultFlatRecord)
        = csvStage (captureOf record) defaultFlatRecord from rfl]
  rw [csvStage_price]
  rfl

/-- C6 witness: the bad-JSON theorem applied to the `"not json"`
record. -/
theorem claim_c6_witness :
    (finalRecord rec_c6).price = PyVal.float (PFloat.finite (mkDec 0 0)) :=
  claim_c6_bad_json rec_c6 "not json" rfl rfl

/-- C7 counterexample: the claim says the value of a present `data`
field is used as the payload, the container itself only when `data` is
absent.  But the source uses Python `or`, which tests truthiness, not
absence: for a container whose `data` field is present but empty, the
container itself — not the empty string — is returned. -/
theorem claim_c7_counterexample :
    lookupVal [("data", PyVal.str "")] "data" = some (PyVal.str "") ∧
    extract_data (PyVal.dict [("data", PyVal.str "")])
      = PyVal.dict [("data", PyVal.str "")] ∧
    extract_data (PyVal.dict [("data", PyVal.str "")]) ≠ PyVal.str "" :=
  ⟨rfl, rfl,
   fun h => PyVal.noConfusion
     (show PyVal.dict [("data", PyVal.str "")] = PyVal.str "" from h)⟩

/-- C7 amended: extraction looks up `data` and uses its value as the
payload when that value is truthy; when `data` is absent or its value
is falsy, the container itself is the raw value; a byte-sequence result
is decoded as UTF-8, and on decode failure the Python bytes repr is
returned instead of raising. -/
theorem claim_c7_amended :
    (∀ (container v : PyVal), container ≠ PyVal.none →
       get_prop container "data" = v → truthy v = true →
       extract_data container = decodeBytesStep v) ∧
    (∀ container : PyVal, container ≠ PyVal.none →
       truthy (get_prop container "data") = false →
       extract_data container = decodeBytesStep container) ∧
    (∀ bs : List Nat, utf8Decode bs = Option.none →
       extract_data (PyVal.bytes bs) = PyVal.str (bytesRepr bs)) := by
  refine ⟨?_, ?_, ?_⟩
  · intro c v hc hv ht
    cases c <;> first
      | exact absurd rfl hc
      | (simp only [extract_data, pyOr, hv, ht, if_true]
         cases v <;> rfl)
  · intro c hc ht
    cases c <;> first
      | exact absurd rfl hc
      | (simp only [extract_data, pyOr, ht, Bool.false_eq_true, if_false]
         rfl)
  · intro bs hdec
    have hstep : extract_data (PyVal.bytes bs)
        = (match utf8Decode bs with
           | some s => PyVal.str s
           | Option.none => PyVal.str (bytesRepr bs)) := rfl
    rw [hstep, hdec]

/-- C7 witness: the amended extraction theorem applied to a container
with a truthy `data` field. -/
theorem claim_c7_witness :
    extract_data (PyVal.dict [("data", PyVal.str "hi")])
      = decodeBytesStep (PyVal.str "hi") :=
  claim_c7_amended.1 (PyVal.dict [("data", PyVal.str "hi")]) (PyVal.str "hi")
    (fun h => PyVal.noConfusion h) rfl rfl

/-- C8 counterexample: the claim says the capture is located under
`captureData` "or a case-insensitive variant of it", with fallback to
the record "when absent".  The source probes exactly the two spellings
`captureData` and `capturedata`: a record keyed `CaptureData` — a
case-insensitive variant — is not found (the spec-worded lookup
`captureOfSpec` finds it, the program falls back to the whole record,
and the parseable payload below it is lost: sqft stays 0.0); and the
fallback is driven by truthiness, not absence: a record whose
`captureData` is present but empty falls back to the record itself, so
a payload sitting next to it is parsed (sqft becomes 1200.0) where the
claim's reading would leave the defaults. -/
theorem claim_c8_counterexample :
    (strToLower "CaptureData" = strToLower "captureData" ∧
     captureOfSpec rec_c8a
       = PyVal.dict [("endpointInput",
           PyVal.dict [("data", PyVal.str "1200, 3, 2.5, Downtown, 1998, Good")])] ∧
     captureOf rec_c8a = rec_c8a ∧
     captureOf rec_c8a ≠ captureOfSpec rec_c8a ∧
     (finalRecord rec_c8a).sqft = PyVal.float (PFloat.finite (mkDec 0 0))) ∧
    (lookupVal [("captureData", PyVal.dict []),
                ("endpointInput",
                 PyVal.dict [("data", PyVal.str "1200, 3, 2.5, Downtown, 1998, Good")])]
       "captureData" = some (PyVal.dict []) ∧
     captureOf rec_c8b = rec_c8b ∧
     (finalRecord rec_c8b).sqft = PyVal.float (PFloat.finite (mkDec 1200 0))) := by
  refine ⟨⟨rfl, rfl, rfl, ?_, rfl⟩, rfl, rfl, rfl⟩
  intro h
  have h2 : rec_c8a
      = PyVal.dict [("endpointInput",
          PyVal.dict [("data", PyVal.str "1200, 3, 2.5, Downtown, 1998, Good")])] := h
  rw [show rec_c8a
        = PyVal.dict [("CaptureData",
            PyVal.dict [("endpointInput",
              PyVal.dict [("data", PyVal.str "1200, 3, 2.5, Downtown, 1998, Good")])])]
      from rfl] at h2
  exact absurd (congrArg (fun v => match v with
    | PyVal.dict ((k, _) :: _) => k
    | _ => "") h2) (by decide)

/-- C8 amended: the capture is located under exactly the names
`captureData` or `capturedata` (first truthy lookup wins), falling back
to the record itself when both lookups are falsy; within the capture
the request payload is found under exactly `endpointInput` or
`endpoint_input` and the response payload under exactly
`endpointOutput` or `endpoint_output` (first truthy lookup wins, else
the snake_case lookup's result). -/
theorem claim_c8_amended :
    (∀ (r v : PyVal), get_prop r "captureData" = v → truthy v = true →
       captureOf r = v) ∧
    (∀ (r v : PyVal), truthy (get_prop r "captureData") = false →
       get_prop r "capturedata" = v → truthy v = true → captureOf r = v) ∧
    (∀ r : PyVal, truthy (get_prop r "captureData") = false →
       truthy (get_prop r "capturedata") = false → captureOf r = r) ∧
    (∀ (c v : PyVal), get_prop c "endpointInput" = v → truthy v = true →
       endpointInputOf c = v) ∧
    (∀ c : PyVal, truthy (get_prop c "endpointInput") = false →
       endpointInputOf c = get_prop c "endpoint_input") ∧
    (∀ (c v : PyVal), get_prop c "endpointOutput" = v → truthy v = true →
       endpointOutputOf c = v) ∧
    (∀ c : PyVal, truthy (get_prop c "endpointOutput") = false →
       endpointOutputOf c = get_prop c "endpoint_output") := by
  refine ⟨?_, ?_, ?_, ?_, ?_, ?_, ?_⟩
  · intro r v hv ht
    simp only [captureOf, pyOr, hv, ht, if_true]
  · intro r v h1 hv ht
    simp only [captureOf, pyOr, h1, hv, ht, Bool.false_eq_true, if_false, if_true]
  · intro r h1 h2
    simp only [captureOf, pyOr, h1, h2, Bool.false_eq_true, if_false]
  · intro c v hv ht
    simp only [endpointInputOf, pyOr, hv, ht, if_true]
  · intro c ht
    simp only [endpointInputOf, pyOr, ht, Bool.false_eq_true, if_false]
  · intro c v hv ht
    simp only [endpointOutputOf, pyOr, hv, ht, if_true]
  · intro c ht
    simp only [endpointOutputOf, pyOr, ht, Bool.false_eq_true, if_false]

/-- C8 witness: the amended capture-location theorem applied to a
record keyed with the exact spelling `captureData`. -/
theorem claim_c8_witness :
    captureOf rec_c4
      = PyVal.dict [("endpointInput",
          PyVal.dict [("data", PyVal.str "1200, 3, 2.5, Downtown, 1998, Good")])] :=
  claim_c8_amended.1 rec_c4
    (PyVal.dict [("endpointInput",
       PyVal.dict [("data", PyVal.str "1200, 3, 2.5, Downtown, 1998, Good")])])
    rfl rfl

